import Mathlib

/-!
Verification of the parsing core of the text-to-spreadsheet tool
(`src/core/data_processor.py`, function `process_ai_data`).

The embedding is shallow:
  * a file is its list of lines (the strings between newlines); the
    filesystem is a map from paths to `Option (List String)` (`none`
    models a missing file, mirroring `os.path.exists`);
  * Python `str.split(sep)`, `str.split(sep, maxsplit)`, `str.strip()`
    and `str.count(ch)` are reimplemented over `List Char`;
  * Python `dict(zip(headers, parts))` is modelled by an association
    list built with Python's dict semantics (insertion order of first
    occurrence, later value for a repeated key overwrites in place);
  * the external spreadsheet write (`df.to_excel`) is an oracle
    boolean `excelWriteOk`: `true` means the library call succeeds,
    `false` that it raises (the `except` branch of the source);
  * warning strings are modelled by an inductive type carrying the
    data interpolated into each source f-string.
-/

set_option autoImplicit false

namespace DataProcessor

/-- A Python dict with string keys and values, as an insertion-ordered
association list. -/
abbrev Record := List (String × String)

/-- The warnings `process_ai_data` can append, one constructor per
f-string of the source, carrying the interpolated data. -/
inductive PWarning where
  | fileNotFound (path : String)
  | headerMismatch (expected : Nat) (found : Nat)
  | repeatedHeader (lineNum : Nat)
  | extraDelimiters (lineNum : Nat)
  | columnMismatch (lineNum : Nat) (expected : Nat) (found : Nat) (row : String)
  | noValidData
  | savedOk (path : String)
  | saveError
  deriving DecidableEq

/-- The fixed delimiter of the source (`DELIMITER = '%'`). -/
def DELIMITER : Char := '%'

/-- Core of Python `s.split(sep)` for a one-character separator, over
the character list, with an accumulator for the field being read. -/
def pySplitAux (delim : Char) : List Char → List Char → List (List Char)
  | [], acc => [acc.reverse]
  | c :: cs, acc =>
    if c = delim then acc.reverse :: pySplitAux delim cs []
    else pySplitAux delim cs (c :: acc)

/-- Python `s.split(sep)` (unlimited): splits at every occurrence of
the separator; the empty string yields `[""]`. -/
def pySplit (delim : Char) (s : String) : List String :=
  (pySplitAux delim s.data []).map String.mk

/-- Core of Python `s.split(sep, maxsplit)`: at most `maxsplit` splits
are performed, the rest of the string becomes the final field. -/
def pySplitMaxAux (delim : Char) : Nat → List Char → List Char → List (List Char)
  | _, [], acc => [acc.reverse]
  | 0, cs, acc => [acc.reverse ++ cs]
  | n + 1, c :: cs, acc =>
    if c = delim then acc.reverse :: pySplitMaxAux delim n cs []
    else pySplitMaxAux delim (n + 1) cs (c :: acc)

/-- Python `s.split(sep, maxsplit)` for a one-character separator. -/
def pySplitMax (delim : Char) (maxsplit : Nat) (s : String) : List String :=
  (pySplitMaxAux delim maxsplit s.data []).map String.mk

/-- Python `s.count(ch)` for a single character. -/
def countChar (delim : Char) (s : String) : Nat :=
  s.data.countP (fun c => c = delim)

/-- Python `s.strip()`: remove leading and trailing whitespace. -/
def pyStrip (s : String) : String :=
  String.mk (((s.data.dropWhile Char.isWhitespace).reverse.dropWhile
    Char.isWhitespace).reverse)

/-- One step of Python dict construction: `d[k] = v`. If the key is
present its value is overwritten in place, otherwise the pair is
appended (insertion order). -/
def dictInsert (d : Record) (k v : String) : Record :=
  if k ∈ d.map Prod.fst then
    d.map (fun p => if p.1 = k then (p.1, v) else p)
  else
    d ++ [(k, v)]

/-- Python `dict(pairs)`: fold the pairs into an initially empty dict. -/
def dictOfPairs (pairs : List (String × String)) : Record :=
  pairs.foldl (fun d p => dictInsert d p.1 p.2) []

/-- Python `d.get(k)` on the association list. Keys of a
`dictOfPairs` result are unique, so the first match is the match. -/
def pyGet : Record → String → Option String
  | [], _ => none
  | p :: rest, k => if p.1 = k then some p.2 else pyGet rest k

/-- The mutable state of the source's line loop: the `warnings` and
`processed_data` accumulators. -/
structure LoopState where
  warnings : List PWarning
  processed : List Record
  deriving DecidableEq

/-- Both accumulators start empty. -/
def initState : LoopState := { warnings := [], processed := [] }

/-- Body of the `for line_num, line in enumerate(f, start=2)` loop of
`process_ai_data` (src/core/data_processor.py lines 38-68): skip blank
lines, skip repeated headers with a warning, split according to the
`ignore_extra_delimiters` flag (warning when extra delimiters were
folded into the last field), then either build the record or record a
column-count mismatch.  The `try/except` around `dict(zip(...))` is
unreachable in Python (string keys are hashable), so it has no
counterpart here. -/
def processLine (headers : List String) (num_columns : Nat)
    (ignore_extra_delimiters : Bool) (st : LoopState) (line_num : Nat)
    (line : String) : LoopState :=
  let stripped_line := pyStrip line
  if stripped_line = "" then st
  else
    let parts_for_check := pySplit DELIMITER stripped_line
    if parts_for_check = headers then
      { st with warnings := st.warnings ++ [PWarning.repeatedHeader line_num] }
    else
      let pw :=
        if ignore_extra_delimiters then
          (pySplitMax DELIMITER (num_columns - 1) stripped_line,
           if countChar DELIMITER stripped_line > num_columns - 1 then
             st.warnings ++ [PWarning.extraDelimiters line_num]
           else st.warnings)
        else
          (pySplit DELIMITER stripped_line, st.warnings)
      if pw.1.length = num_columns then
        { warnings := pw.2,
          processed := st.processed ++ [dictOfPairs (headers.zip pw.1)] }
      else
        { warnings := pw.2 ++
            [PWarning.columnMismatch line_num num_columns pw.1.length stripped_line],
          processed := st.processed }

/-- The whole data-line loop: lines after the header, enumerated from 2
exactly as in the source. -/
def runLoop (headers : List String) (num_columns : Nat)
    (ignore_extra_delimiters : Bool) (dataLines : List String) : LoopState :=
  (List.enumFrom 2 dataLines).foldl
    (fun st p => processLine headers num_columns ignore_extra_delimiters st p.1 p.2)
    initState

/-- The header sequence of a file: first line (Python `f.readline()`,
the empty string for an empty file), stripped, split on the delimiter. -/
def headersOf (fileLines : List String) : List String :=
  pySplit DELIMITER (pyStrip (fileLines.headD ""))

/-- Embedding of `process_ai_data` (src/core/data_processor.py).
`fs` models the filesystem (`os.path.exists` + `open`): it maps a path
to the lines of the file there, or `none` when the path is absent.
`excelWriteOk` models the outcome of the external
`pd.DataFrame(...).to_excel(...)` call: `true` if it returns normally,
`false` if it raises (caught by the source's `except`).  The result is
the source's returned pair: the records that became the DataFrame (or
`none` for Python `None`), and the warning list. -/
def process_ai_data (fs : String → Option (List String)) (excelWriteOk : Bool)
    (input_file_path : String) (output_file_path : String) (num_columns : Nat)
    (ignore_extra_delimiters : Bool) : Option (List Record) × List PWarning :=
  match fs input_file_path with
  | none => (none, [PWarning.fileNotFound input_file_path])
  | some fileLines =>
    let headers := headersOf fileLines
    if headers.length ≠ num_columns then
      (none, [PWarning.headerMismatch num_columns headers.length])
    else
      let final := runLoop headers num_columns ignore_extra_delimiters fileLines.tail
      if final.processed = [] then
        (none, final.warnings ++ [PWarning.noValidData])
      else if excelWriteOk then
        (some final.processed, final.warnings ++ [PWarning.savedOk output_file_path])
      else
        (none, final.warnings ++ [PWarning.saveError])

/-- Joining a list of character lists with the delimiter between
consecutive fields; used to state that a field holds "the delimiter
characters and remaining text verbatim". -/
def joinCharWith (delim : Char) : List (List Char) → List Char
  | [] => []
  | [x] => x
  | x :: y :: rest => x ++ delim :: joinCharWith delim (y :: rest)

/-- String-level join with a one-character separator. -/
def joinWith (delim : Char) (l : List String) : String :=
  String.mk (joinCharWith delim (l.map String.data))

/-- The value Python's dict keeps for key `k` when built from `pairs`:
the value of the last pair with that key. -/
def lastVal (pairs : List (String × String)) (k : String) : Option String :=
  ((pairs.filter (fun p => p.1 = k)).map Prod.snd).getLast?

/-! ### Lemmas about the split functions -/

theorem length_pySplitAux (delim : Char) (cs : List Char) : ∀ acc : List Char,
    (pySplitAux delim cs acc).length = cs.countP (fun c => c = delim) + 1 := by
  induction cs with
  | nil => intro acc; simp [pySplitAux]
  | cons c cs ih =>
    intro acc
    by_cases h : c = delim <;>
      simp [pySplitAux, h, ih, List.countP_cons]

theorem length_pySplit (delim : Char) (s : String) :
    (pySplit delim s).length = countChar delim s + 1 := by
  simp [pySplit, countChar, length_pySplitAux]

theorem pySplitAux_ne_nil (delim : Char) (cs acc : List Char) :
    pySplitAux delim cs acc ≠ [] := by
  intro h
  have := length_pySplitAux delim cs acc
  rw [h] at this
  simp at this

theorem length_pySplitMaxAux (delim : Char) (cs : List Char) :
    ∀ (k : Nat) (acc : List Char),
    (pySplitMaxAux delim k cs acc).length =
      min (cs.countP (fun c => c = delim)) k + 1 := by
  induction cs with
  | nil => intro k acc; simp [pySplitMaxAux]
  | cons c cs ih =>
    intro k acc
    match k with
    | 0 => simp [pySplitMaxAux]
    | k + 1 =>
      by_cases h : c = delim
      · rw [pySplitMaxAux, if_pos h, List.length_cons, ih k [],
          List.countP_cons]
        simp [h]
        omega
      · rw [pySplitMaxAux, if_neg h, ih (k + 1) (c :: acc), List.countP_cons]
        simp [h]

theorem length_pySplitMax (delim : Char) (k : Nat) (s : String) :
    (pySplitMax delim k s).length = min (countChar delim s) k + 1 := by
  simp [pySplitMax, countChar, length_pySplitMaxAux]

theorem joinCharWith_cons (delim : Char) (x : List Char) (l : List (List Char))
    (h : l ≠ []) :
    joinCharWith delim (x :: l) = x ++ delim :: joinCharWith delim l := by
  cases l with
  | nil => exact absurd rfl h
  | cons y rest => rfl

theorem joinCharWith_pySplitAux (delim : Char) (cs : List Char) :
    ∀ acc : List Char,
    joinCharWith delim (pySplitAux delim cs acc) = acc.reverse ++ cs := by
  induction cs with
  | nil => intro acc; simp [pySplitAux, joinCharWith]
  | cons c cs ih =>
    intro acc
    by_cases h : c = delim
    · rw [pySplitAux, if_pos h,
        joinCharWith_cons delim _ _ (pySplitAux_ne_nil delim cs []), ih []]
      simp [h]
    · rw [pySplitAux, if_neg h, ih (c :: acc)]
      simp

theorem pySplitMaxAux_take_drop (delim : Char) (cs : List Char) :
    ∀ (k : Nat) (acc : List Char), k ≤ cs.countP (fun c => c = delim) →
    pySplitMaxAux delim k cs acc =
      (pySplitAux delim cs acc).take k ++
        [joinCharWith delim ((pySplitAux delim cs acc).drop k)] := by
  induction cs with
  | nil =>
    intro k acc hk
    simp only [List.countP_nil, Nat.le_zero] at hk
    subst hk
    simp [pySplitMaxAux, pySplitAux, joinCharWith]
  | cons c cs ih =>
    intro k acc hk
    match k with
    | 0 => simp [pySplitMaxAux, joinCharWith_pySplitAux]
    | k + 1 =>
      by_cases h : c = delim
      · have hk' : k ≤ cs.countP (fun c => c = delim) := by
          simp [List.countP_cons, h] at hk
          omega
        rw [pySplitMaxAux, if_pos h, pySplitAux, if_pos h, ih k [] hk']
        simp
      · have hk' : k + 1 ≤ cs.countP (fun c => c = delim) := by
          simpa [List.countP_cons, h] using hk
        rw [pySplitMaxAux, if_neg h, pySplitAux, if_neg h, ih (k + 1) (c :: acc) hk']

theorem pySplitMax_take_join (delim : Char) (k : Nat) (s : String)
    (hk : k ≤ countChar delim s) :
    pySplitMax delim k s =
      (pySplit delim s).take k ++
        [joinWith delim ((pySplit delim s).drop k)] := by
  unfold pySplitMax pySplit joinWith
  rw [pySplitMaxAux_take_drop delim s.data k [] hk, List.map_append]
  congr 1
  · exact List.map_take _ _ _
  · simp only [List.map_cons, List.map_nil]
    congr 2
    rw [← List.map_drop, List.map_map]
    have hid : (String.data ∘ String.mk) = id := rfl
    rw [hid, List.map_id]

/-! ### Lemmas about the dict model -/

theorem map_fst_overwrite (d : Record) (k v : String) :
    (d.map (fun p => if p.1 = k then (p.1, v) else p)).map Prod.fst =
      d.map Prod.fst := by
  induction d with
  | nil => rfl
  | cons p rest ih => by_cases h : p.1 = k <;> simp [h, ih]

theorem map_fst_dictInsert (d : Record) (k v : String) :
    (dictInsert d k v).map Prod.fst =
      if k ∈ d.map Prod.fst then d.map Prod.fst else d.map Prod.fst ++ [k] := by
  unfold dictInsert
  split
  · exact map_fst_overwrite d k v
  · simp

theorem length_dictInsert (d : Record) (k v : String) :
    (dictInsert d k v).length =
      if k ∈ d.map Prod.fst then d.length else d.length + 1 := by
  unfold dictInsert
  split <;> simp

theorem dictOfPairs_concat (pairs : List (String × String))
    (p : String × String) :
    dictOfPairs (pairs ++ [p]) = dictInsert (dictOfPairs pairs) p.1 p.2 := by
  unfold dictOfPairs
  rw [List.foldl_append]
  rfl

theorem mem_map_fst_dictOfPairs (pairs : List (String × String)) (x : String) :
    x ∈ (dictOfPairs pairs).map Prod.fst ↔ x ∈ pairs.map Prod.fst := by
  induction pairs using List.reverseRecOn with
  | nil => simp [dictOfPairs]
  | append_singleton pairs p ih =>
    rw [dictOfPairs_concat, map_fst_dictInsert]
    by_cases h : p.1 ∈ (dictOfPairs pairs).map Prod.fst
    · rw [if_pos h]
      simp only [List.map_append, List.mem_append, List.map_cons, List.map_nil,
        List.mem_singleton]
      constructor
      · intro hx; exact Or.inl (ih.mp hx)
      · rintro (hx | rfl)
        · exact ih.mpr hx
        · exact h
    · rw [if_neg h]
      simp [ih]

theorem length_dictOfPairs_le (pairs : List (String × String)) :
    (dictOfPairs pairs).length ≤ pairs.length := by
  induction pairs using List.reverseRecOn with
  | nil => simp [dictOfPairs]
  | append_singleton pairs p ih =>
    rw [dictOfPairs_concat, length_dictInsert]
    split <;> simp <;> omega

theorem length_dictOfPairs_lt (pairs : List (String × String))
    (hdup : ¬ (pairs.map Prod.fst).Nodup) :
    (dictOfPairs pairs).length < pairs.length := by
  induction pairs using List.reverseRecOn with
  | nil => simp at hdup
  | append_singleton pairs p ih =>
    rw [dictOfPairs_concat, length_dictInsert, List.length_append,
      List.length_singleton]
    by_cases hnd : (pairs.map Prod.fst).Nodup
    · have hmem : p.1 ∈ pairs.map Prod.fst := by
        by_contra hno
        apply hdup
        rw [List.map_append]
        simp [List.nodup_append, hnd, hno]
      rw [if_pos ((mem_map_fst_dictOfPairs pairs p.1).mpr hmem)]
      have := length_dictOfPairs_le pairs
      omega
    · have := ih hnd
      split
      · omega
      · omega

theorem foldl_dictInsert_nodup (pairs : List (String × String)) :
    ∀ d : Record, ((d ++ pairs).map Prod.fst).Nodup →
    pairs.foldl (fun d p => dictInsert d p.1 p.2) d = d ++ pairs := by
  induction pairs with
  | nil => intro d _; simp
  | cons p rest ih =>
    intro d hnd
    have hno : p.1 ∉ d.map Prod.fst := by
      rw [List.map_append, List.nodup_append] at hnd
      intro hx
      exact (hnd.2.2 hx) (by simp)
    have hins : dictInsert d p.1 p.2 = d ++ [p] := by
      unfold dictInsert
      rw [if_neg hno]
    rw [List.foldl_cons]
    show List.foldl (fun d p => dictInsert d p.1 p.2) (dictInsert d p.1 p.2) rest
      = d ++ p :: rest
    rw [hins, ih (d ++ [p]) (by simpa using hnd)]
    simp

theorem dictOfPairs_of_nodup (pairs : List (String × String))
    (hnd : (pairs.map Prod.fst).Nodup) :
    dictOfPairs pairs = pairs := by
  have := foldl_dictInsert_nodup pairs [] (by simpa using hnd)
  simpa [dictOfPairs] using this

theorem pyGet_append_left (d₁ d₂ : Record) (k : String) (v : String)
    (h : pyGet d₁ k = some v) : pyGet (d₁ ++ d₂) k = some v := by
  induction d₁ with
  | nil => simp [pyGet] at h
  | cons p rest ih =>
    by_cases hp : p.1 = k
    · simpa [pyGet, hp] using h
    · rw [pyGet, if_neg hp] at h
      simpa [pyGet, hp] using ih h

theorem pyGet_append_right (d₁ d₂ : Record) (k : String)
    (h : pyGet d₁ k = none) : pyGet (d₁ ++ d₂) k = pyGet d₂ k := by
  induction d₁ with
  | nil => simp
  | cons p rest ih =>
    by_cases hp : p.1 = k
    · simp [pyGet, hp] at h
    · rw [pyGet, if_neg hp] at h
      simpa [pyGet, hp] using ih h

theorem pyGet_eq_none (d : Record) (k : String) (h : k ∉ d.map Prod.fst) :
    pyGet d k = none := by
  induction d with
  | nil => rfl
  | cons p rest ih =>
    simp only [List.map_cons, List.mem_cons, not_or] at h
    rw [pyGet, if_neg (fun hp => h.1 hp.symm)]
    exact ih h.2

theorem pyGet_overwrite_mem (d : Record) (k v : String)
    (h : k ∈ d.map Prod.fst) :
    pyGet (d.map (fun p => if p.1 = k then (p.1, v) else p)) k = some v := by
  induction d with
  | nil => simp at h
  | cons p rest ih =>
    by_cases hp : p.1 = k
    · simp [pyGet, hp]
    · simp only [List.map_cons, List.mem_cons] at h
      rw [List.map_cons, if_neg hp, pyGet, if_neg hp]
      exact ih (h.resolve_left (fun he => hp he.symm))

theorem pyGet_overwrite_ne (d : Record) (k k' v : String) (h : k ≠ k') :
    pyGet (d.map (fun p => if p.1 = k' then (p.1, v) else p)) k = pyGet d k := by
  induction d with
  | nil => rfl
  | cons p rest ih =>
    by_cases hp : p.1 = k'
    · rw [List.map_cons, if_pos hp, pyGet, pyGet,
        if_neg (fun he : p.1 = k => h (he ▸ hp ▸ rfl))]
      · rw [if_neg (hp ▸ fun he => h he.symm)] at *
        exact ih
    · rw [List.map_cons, if_neg hp, pyGet, pyGet]
      by_cases he : p.1 = k
      · rw [if_pos he, if_pos he]
      · rw [if_neg he, if_neg he]
        exact ih

theorem pyGet_dictInsert (d : Record) (k k' v : String) :
    pyGet (dictInsert d k' v) k = if k = k' then some v else pyGet d k := by
  unfold dictInsert
  by_cases hk : k = k'
  · subst hk
    rw [if_pos rfl]
    split
    · exact pyGet_overwrite_mem d k v (by assumption)
    · exact pyGet_append_right d [(k, v)] k
        (pyGet_eq_none d k (by assumption)) |>.trans (by simp [pyGet])
  · rw [if_neg hk]
    split
    · exact pyGet_overwrite_ne d k k' v hk
    · cases hval : pyGet d k with
      | none =>
        rw [pyGet_append_right d [(k', v)] k hval]
        have hne : ¬ ((k', v).1 = k) := fun h => hk h.symm
        rw [pyGet, if_neg hne]
        rfl
      | some w => exact pyGet_append_left d [(k', v)] k w hval

theorem pyGet_dictOfPairs (pairs : List (String × String)) (k : String) :
    pyGet (dictOfPairs pairs) k = lastVal pairs k := by
  induction pairs using List.reverseRecOn with
  | nil => rfl
  | append_singleton pairs p ih =>
    rw [dictOfPairs_concat, pyGet_dictInsert]
    unfold lastVal
    rw [List.filter_append]
    by_cases hp : p.1 = k
    · rw [if_pos hp.symm]
      simp [hp, List.getLast?_concat]
    · rw [if_neg (fun he : k = p.1 => hp he.symm)]
      rw [ih]
      unfold lastVal
      simp [hp]

/-! ### Characterization of the line loop -/

theorem processLine_blank (headers : List String) (N : Nat) (flag : Bool)
    (st : LoopState) (ln : Nat) (line : String) (h : pyStrip line = "") :
    processLine headers N flag st ln line = st := by
  simp [processLine, h]

theorem processLine_repeated (headers : List String) (N : Nat) (flag : Bool)
    (st : LoopState) (ln : Nat) (line : String) (h1 : pyStrip line ≠ "")
    (h2 : pySplit DELIMITER (pyStrip line) = headers) :
    processLine headers N flag st ln line =
      { st with warnings := st.warnings ++ [PWarning.repeatedHeader ln] } := by
  simp [processLine, h1, h2]

theorem processLine_false_record (headers : List String) (N : Nat)
    (st : LoopState) (ln : Nat) (line : String) (h1 : pyStrip line ≠ "")
    (h2 : pySplit DELIMITER (pyStrip line) ≠ headers)
    (h3 : (pySplit DELIMITER (pyStrip line)).length = N) :
    processLine headers N false st ln line =
      { warnings := st.warnings,
        processed := st.processed ++
          [dictOfPairs (headers.zip (pySplit DELIMITER (pyStrip line)))] } := by
  simp [processLine, h1, h2, h3]

theorem processLine_false_mismatch (headers : List String) (N : Nat)
    (st : LoopState) (ln : Nat) (line : String) (h1 : pyStrip line ≠ "")
    (h2 : pySplit DELIMITER (pyStrip line) ≠ headers)
    (h3 : (pySplit DELIMITER (pyStrip line)).length ≠ N) :
    processLine headers N false st ln line =
      { warnings := st.warnings ++
          [PWarning.columnMismatch ln N (pySplit DELIMITER (pyStrip line)).length
            (pyStrip line)],
        processed := st.processed } := by
  simp [processLine, h1, h2, h3]

theorem processLine_true_record (headers : List String) (N : Nat)
    (st : LoopState) (ln : Nat) (line : String) (h1 : pyStrip line ≠ "")
    (h2 : pySplit DELIMITER (pyStrip line) ≠ headers)
    (h3 : (pySplitMax DELIMITER (N - 1) (pyStrip line)).length = N) :
    processLine headers N true st ln line =
      { warnings :=
          if countChar DELIMITER (pyStrip line) > N - 1 then
            st.warnings ++ [PWarning.extraDelimiters ln]
          else st.warnings,
        processed := st.processed ++
          [dictOfPairs (headers.zip (pySplitMax DELIMITER (N - 1) (pyStrip line)))] } := by
  simp [processLine, h1, h2, h3]

theorem processLine_true_mismatch (headers : List String) (N : Nat)
    (st : LoopState) (ln : Nat) (line : String) (h1 : pyStrip line ≠ "")
    (h2 : pySplit DELIMITER (pyStrip line) ≠ headers)
    (h3 : (pySplitMax DELIMITER (N - 1) (pyStrip line)).length ≠ N) :
    processLine headers N true st ln line =
      { warnings :=
          (if countChar DELIMITER (pyStrip line) > N - 1 then
            st.warnings ++ [PWarning.extraDelimiters ln]
          else st.warnings) ++
          [PWarning.columnMismatch ln N
            (pySplitMax DELIMITER (N - 1) (pyStrip line)).length (pyStrip line)],
        processed := st.processed } := by
  simp [processLine, h1, h2, h3]

theorem foldl_processed_invariant (headers : List String) (N : Nat) (flag : Bool)
    (Q : Record → Prop)
    (hQ : ∀ parts : List String, parts.length = N →
      Q (dictOfPairs (headers.zip parts))) :
    ∀ (l : List (Nat × String)) (st : LoopState), (∀ r ∈ st.processed, Q r) →
    ∀ r ∈ (l.foldl (fun st p => processLine headers N flag st p.1 p.2) st).processed,
      Q r := by
  intro l
  induction l with
  | nil => intro st hst; exact hst
  | cons p rest ih =>
    intro st hst
    rw [List.foldl_cons]
    apply ih
    intro r hr
    by_cases h1 : pyStrip p.2 = ""
    · rw [processLine_blank headers N flag st p.1 p.2 h1] at hr
      exact hst r hr
    · by_cases h2 : pySplit DELIMITER (pyStrip p.2) = headers
      · rw [processLine_repeated headers N flag st p.1 p.2 h1 h2] at hr
        exact hst r hr
      · cases flag with
        | false =>
          by_cases h3 : (pySplit DELIMITER (pyStrip p.2)).length = N
          · rw [processLine_false_record headers N st p.1 p.2 h1 h2 h3] at hr
            rcases List.mem_append.mp hr with h | h
            · exact hst r h
            · rw [List.mem_singleton.mp h]
              exact hQ _ h3
          · rw [processLine_false_mismatch headers N st p.1 p.2 h1 h2 h3] at hr
            exact hst r hr
        | true =>
          by_cases h3 : (pySplitMax DELIMITER (N - 1) (pyStrip p.2)).length = N
          · rw [processLine_true_record headers N st p.1 p.2 h1 h2 h3] at hr
            rcases List.mem_append.mp hr with h | h
            · exact hst r h
            · rw [List.mem_singleton.mp h]
              exact hQ _ h3
          · rw [processLine_true_mismatch headers N st p.1 p.2 h1 h2 h3] at hr
            exact hst r hr

theorem runLoop_keys (headers : List String) (N : Nat) (flag : Bool)
    (dataLines : List String) (hnd : headers.Nodup) (hlen : headers.length = N) :
    ∀ r ∈ (runLoop headers N flag dataLines).processed,
      r.map Prod.fst = headers := by
  apply foldl_processed_invariant headers N flag
    (fun r => r.map Prod.fst = headers)
  · intro parts hp
    have hle : headers.length ≤ parts.length := by omega
    have hzip : (headers.zip parts).map Prod.fst = headers :=
      List.map_fst_zip headers parts hle
    have hnd' : ((headers.zip parts).map Prod.fst).Nodup := by
      rw [hzip]; exact hnd
    rw [dictOfPairs_of_nodup _ hnd', hzip]
  · intro r hr
    simp [initState] at hr

/-! ### Characterization of the outer function -/

theorem process_file_missing (fs : String → Option (List String)) (wOk : Bool)
    (inP outP : String) (N : Nat) (flag : Bool) (h : fs inP = none) :
    process_ai_data fs wOk inP outP N flag =
      (none, [PWarning.fileNotFound inP]) := by
  simp [process_ai_data, h]

theorem process_header_bad (fs : String → Option (List String)) (wOk : Bool)
    (inP outP : String) (N : Nat) (flag : Bool) (lines : List String)
    (hfs : fs inP = some lines) (hlen : (headersOf lines).length ≠ N) :
    process_ai_data fs wOk inP outP N flag =
      (none, [PWarning.headerMismatch N (headersOf lines).length]) := by
  simp [process_ai_data, hfs, hlen]

theorem process_no_records (fs : String → Option (List String)) (wOk : Bool)
    (inP outP : String) (N : Nat) (flag : Bool) (lines : List String)
    (hfs : fs inP = some lines) (hlen : (headersOf lines).length = N)
    (hzero : (runLoop (headersOf lines) N flag lines.tail).processed = []) :
    process_ai_data fs wOk inP outP N flag =
      (none, (runLoop (headersOf lines) N flag lines.tail).warnings ++
        [PWarning.noValidData]) := by
  simp [process_ai_data, hfs, hlen, hzero]

theorem process_success (fs : String → Option (List String))
    (inP outP : String) (N : Nat) (flag : Bool) (lines : List String)
    (hfs : fs inP = some lines) (hlen : (headersOf lines).length = N)
    (hne : (runLoop (headersOf lines) N flag lines.tail).processed ≠ []) :
    process_ai_data fs true inP outP N flag =
      (some (runLoop (headersOf lines) N flag lines.tail).processed,
       (runLoop (headersOf lines) N flag lines.tail).warnings ++
        [PWarning.savedOk outP]) := by
  simp [process_ai_data, hfs, hlen, hne]

theorem process_write_fail (fs : String → Option (List String))
    (inP outP : String) (N : Nat) (flag : Bool) (lines : List String)
    (hfs : fs inP = some lines) (hlen : (headersOf lines).length = N)
    (hne : (runLoop (headersOf lines) N flag lines.tail).processed ≠ []) :
    process_ai_data fs false inP outP N flag =
      (none, (runLoop (headersOf lines) N flag lines.tail).warnings ++
        [PWarning.saveError]) := by
  simp [process_ai_data, hfs, hlen, hne]

/-! ### Claim C1 -/

/-- C1 counterexample: the claim fails as stated.  For the existing
input file with lines `["a%a", "1%2"]` and `num_columns = 2` the header
has exactly 2 fields, yet the single emitted record has 1 key (the
duplicate header name `a` is collapsed by dict construction), not 2. -/
theorem c1_counterexample :
    (headersOf ["a%a", "1%2"]).length = 2 ∧
    process_ai_data (fun p => if p = "in.txt" then some ["a%a", "1%2"] else none)
        true "in.txt" "out.xlsx" 2 false =
      (some [[("a", "2")]], [PWarning.savedOk "out.xlsx"]) ∧
    ([("a", "2")] : Record).length ≠ 2 := by
  refine ⟨by decide, by decide, by decide⟩

/-- C1 (amended): for every input file whose header has exactly
`num_columns` fields that are moreover pairwise distinct, every record
emitted by `process_ai_data` has exactly `num_columns` keys, equal to
the header sequence and in header order (every value is a string by
construction of `Record`). -/
theorem c1_records_match_headers (fs : String → Option (List String))
    (wOk : Bool) (inP outP : String) (N : Nat) (flag : Bool)
    (lines : List String) (records : List Record) (warns : List PWarning)
    (hfs : fs inP = some lines) (hnd : (headersOf lines).Nodup)
    (hres : process_ai_data fs wOk inP outP N flag = (some records, warns)) :
    ∀ r ∈ records, r.map Prod.fst = headersOf lines ∧ r.length = N := by
  by_cases hlen : (headersOf lines).length = N
  · by_cases hzero : (runLoop (headersOf lines) N flag lines.tail).processed = []
    · rw [process_no_records fs wOk inP outP N flag lines hfs hlen hzero] at hres
      simp at hres
    · cases wOk with
      | false =>
        rw [process_write_fail fs inP outP N flag lines hfs hlen hzero] at hres
        simp at hres
      | true =>
        rw [process_success fs inP outP N flag lines hfs hlen hzero] at hres
        have hrec : (runLoop (headersOf lines) N flag lines.tail).processed
            = records := by
          have := congrArg Prod.fst hres
          simpa using this
        intro r hr
        have hkeys := runLoop_keys (headersOf lines) N flag lines.tail hnd hlen r
          (by rw [hrec]; exact hr)
        refine ⟨hkeys, ?_⟩
        have h3 := congrArg List.length hkeys
        rw [List.length_map] at h3
        exact h3.trans hlen
  · rw [process_header_bad fs wOk inP outP N flag lines hfs hlen] at hres
    simp at hres

/-- C1 witness: a concrete run of the amended theorem on the file
`["a%b", "1%2"]` with distinct header fields. -/
theorem c1_witness :
    ([("a", "1"), ("b", "2")] : Record).map Prod.fst = headersOf ["a%b", "1%2"] ∧
    ([("a", "1"), ("b", "2")] : Record).length = 2 :=
  c1_records_match_headers
    (fun p => if p = "in.txt" then some ["a%b", "1%2"] else none) true
    "in.txt" "out.xlsx" 2 false ["a%b", "1%2"]
    [[("a", "1"), ("b", "2")]] [PWarning.savedOk "out.xlsx"]
    (by decide) (by decide) (by decide)
    [("a", "1"), ("b", "2")] (by decide)

/-! ### Claim C2 -/

/-- C2: for every non-blank, non-repeated-header data line with more
than `num_columns - 1` delimiter occurrences: with the flag off, the
loop appends a column-count mismatch warning (expected `N`, found
`count + 1`) and no record; with the flag on, it appends exactly one
record built from the `maxsplit` parts plus an extra-delimiters
warning, and the last `maxsplit` part is verbatim the join of the
remaining unlimited-split fields with the delimiter.  The last two
conjuncts are the spec's concrete example (header `a%b%c`, `N = 3`,
data line `1%2%3%4`) for both flag values. -/
theorem c2_extra_delimiters (headers : List String) (N : Nat) (st : LoopState)
    (ln : Nat) (line : String) (hN : 1 ≤ N) (h1 : pyStrip line ≠ "")
    (h2 : pySplit DELIMITER (pyStrip line) ≠ headers)
    (hcount : countChar DELIMITER (pyStrip line) > N - 1) :
    processLine headers N false st ln line =
      { warnings := st.warnings ++
          [PWarning.columnMismatch ln N (countChar DELIMITER (pyStrip line) + 1)
            (pyStrip line)],
        processed := st.processed } ∧
    processLine headers N true st ln line =
      { warnings := st.warnings ++ [PWarning.extraDelimiters ln],
        processed := st.processed ++
          [dictOfPairs (headers.zip
            (pySplitMax DELIMITER (N - 1) (pyStrip line)))] } ∧
    pySplitMax DELIMITER (N - 1) (pyStrip line) =
      (pySplit DELIMITER (pyStrip line)).take (N - 1) ++
        [joinWith DELIMITER ((pySplit DELIMITER (pyStrip line)).drop (N - 1))] ∧
    process_ai_data
        (fun p => if p = "in.txt" then some ["a%b%c", "1%2%3%4"] else none)
        true "in.txt" "out.xlsx" 3 false =
      (none, [PWarning.columnMismatch 2 3 4 "1%2%3%4", PWarning.noValidData]) ∧
    process_ai_data
        (fun p => if p = "in.txt" then some ["a%b%c", "1%2%3%4"] else none)
        true "in.txt" "out.xlsx" 3 true =
      (some [[("a", "1"), ("b", "2"), ("c", "3%4")]],
       [PWarning.extraDelimiters 2, PWarning.savedOk "out.xlsx"]) := by
  have hsplitlen : (pySplit DELIMITER (pyStrip line)).length =
      countChar DELIMITER (pyStrip line) + 1 := length_pySplit _ _
  have hne : (pySplit DELIMITER (pyStrip line)).length ≠ N := by omega
  have hmaxlen : (pySplitMax DELIMITER (N - 1) (pyStrip line)).length = N := by
    rw [length_pySplitMax, min_eq_right (by omega)]
    omega
  refine ⟨?_, ?_, ?_, by decide, by decide⟩
  · rw [processLine_false_mismatch headers N st ln line h1 h2 hne, hsplitlen]
  · rw [processLine_true_record headers N st ln line h1 h2 hmaxlen, if_pos hcount]
  · exact pySplitMax_take_join DELIMITER (N - 1) (pyStrip line) (by omega)

/-- C2 witness: the general statement instantiated on the spec's
example line. -/
theorem c2_witness :
    processLine ["a", "b", "c"] 3 false initState 2 "1%2%3%4" =
      { warnings := [PWarning.columnMismatch 2 3 4 "1%2%3%4"],
        processed := [] } ∧
    processLine ["a", "b", "c"] 3 true initState 2 "1%2%3%4" =
      { warnings := [PWarning.extraDelimiters 2],
        processed := [[("a", "1"), ("b", "2"), ("c", "3%4")]] } := by
  have h := c2_extra_delimiters ["a", "b", "c"] 3 initState 2 "1%2%3%4"
    (by decide) (by decide) (by decide) (by decide)
  exact ⟨h.1, h.2.1⟩

/-! ### Claim C3 -/

/-- C3 counterexample: the claim fails as stated for a blank data line
when the header is the single empty field.  With file lines
`["", " "]` and `num_columns = 1`, the unlimited split of the stripped
line 2 equals the header sequence `[""]`, yet no repeated-header
warning is produced: the blank-line check precedes the repeated-header
check. -/
theorem c3_counterexample :
    pySplit DELIMITER (pyStrip " ") = headersOf ["", " "] ∧
    process_ai_data (fun p => if p = "in.txt" then some ["", " "] else none)
        true "in.txt" "out.xlsx" 1 false =
      (none, [PWarning.noValidData]) ∧
    PWarning.repeatedHeader 2 ∉
      (process_ai_data (fun p => if p = "in.txt" then some ["", " "] else none)
        true "in.txt" "out.xlsx" 1 false).2 := by
  refine ⟨by decide, by decide, by decide⟩

/-- C3 (amended): for every data line that is non-blank after
stripping, and for both values of the flag, if the unlimited delimiter
split of the stripped line equals the header sequence, the loop skips
the line (no record) and appends a repeated-header warning citing the
line number; the hypothesis is on the unlimited split, independent of
the flag. -/
theorem c3_repeated_header_skipped (headers : List String) (N : Nat)
    (flag : Bool) (st : LoopState) (ln : Nat) (line : String)
    (h1 : pyStrip line ≠ "") (h2 : pySplit DELIMITER (pyStrip line) = headers) :
    processLine headers N flag st ln line =
      { st with warnings := st.warnings ++ [PWarning.repeatedHeader ln] } :=
  processLine_repeated headers N flag st ln line h1 h2

/-- C3 witness: a repeated header row is skipped with a warning even
with the tolerate-extra-delimiters flag on. -/
theorem c3_witness :
    processLine ["a", "b"] 2 true initState 2 "a%b" =
      { warnings := [PWarning.repeatedHeader 2], processed := [] } :=
  c3_repeated_header_skipped ["a", "b"] 2 true initState 2 "a%b"
    (by decide) (by decide)

/-! ### Claim C4 -/

/-- C4: for every existing input file whose first line splits into
`M ≠ num_columns` fields, `process_ai_data` returns the no-data
sentinel with exactly one warning (the header mismatch) and zero
records; the result does not depend on the remaining lines, so no
further line processing occurs. -/
theorem c4_header_mismatch_terminal (fs : String → Option (List String))
    (wOk : Bool) (inP outP : String) (N : Nat) (flag : Bool)
    (headerLine : String) (rest : List String)
    (hfs : fs inP = some (headerLine :: rest))
    (hM : (pySplit DELIMITER (pyStrip headerLine)).length ≠ N) :
    process_ai_data fs wOk inP outP N flag =
      (none,
       [PWarning.headerMismatch N (pySplit DELIMITER (pyStrip headerLine)).length]) := by
  have hh : headersOf (headerLine :: rest) = pySplit DELIMITER (pyStrip headerLine) :=
    rfl
  have hb := process_header_bad fs wOk inP outP N flag (headerLine :: rest) hfs
    (by rw [hh]; exact hM)
  rw [hb, hh]

/-- C4 witness: a two-field header with `num_columns = 3`. -/
theorem c4_witness :
    process_ai_data (fun p => if p = "in.txt" then some ["a%b", "x"] else none)
        true "in.txt" "out.xlsx" 3 false =
      (none, [PWarning.headerMismatch 3 2]) :=
  c4_header_mismatch_terminal
    (fun p => if p = "in.txt" then some ["a%b", "x"] else none)
    true "in.txt" "out.xlsx" 3 false "a%b" ["x"] (by decide) (by decide)

/-! ### Claim C5 -/

/-- C5: for every input, `process_ai_data` returns a value (the
embedding is total, mirroring that no exception escapes: every failure
of the source is a caught branch); the result is always either a
success (non-empty records, warning list ending in the saved-ok
message) or the no-data sentinel with a non-empty warning list ending
in one of the fatal warnings (file not found, header mismatch, no
valid data, save error).  Recoverable per-line failures only add
warnings inside the accumulated list and never change this shape. -/
theorem c5_no_exceptions_classification (fs : String → Option (List String))
    (wOk : Bool) (inP outP : String) (N : Nat) (flag : Bool) :
    (∃ recs warns,
      process_ai_data fs wOk inP outP N flag = (some recs, warns) ∧
      recs ≠ [] ∧ warns ≠ [] ∧
      warns.getLast? = some (PWarning.savedOk outP)) ∨
    (∃ warns,
      process_ai_data fs wOk inP outP N flag = (none, warns) ∧
      warns ≠ [] ∧
      (warns.getLast? = some (PWarning.fileNotFound inP) ∨
       (∃ m, warns.getLast? = some (PWarning.headerMismatch N m)) ∨
       warns.getLast? = some PWarning.noValidData ∨
       warns.getLast? = some PWarning.saveError)) := by
  cases hfs : fs inP with
  | none =>
    right
    exact ⟨_, process_file_missing fs wOk inP outP N flag hfs, by simp,
      Or.inl (by simp)⟩
  | some lines =>
    by_cases hlen : (headersOf lines).length = N
    · by_cases hzero : (runLoop (headersOf lines) N flag lines.tail).processed = []
      · right
        refine ⟨_, process_no_records fs wOk inP outP N flag lines hfs hlen hzero,
          by simp, ?_⟩
        right; right; left
        exact List.getLast?_concat _
      · cases wOk with
        | true =>
          left
          refine ⟨_, _, process_success fs inP outP N flag lines hfs hlen hzero,
            hzero, by simp, ?_⟩
          exact List.getLast?_concat _
        | false =>
          right
          refine ⟨_, process_write_fail fs inP outP N flag lines hfs hlen hzero,
            by simp, ?_⟩
          right; right; right
          exact List.getLast?_concat _
    · right
      refine ⟨_, process_header_bad fs wOk inP outP N flag lines hfs hlen,
        by simp, ?_⟩
      right; left
      exact ⟨(headersOf lines).length, by simp⟩

/-! ### Claim C6 -/

/-- C6: when parsing produced at least one record but the spreadsheet
write fails, the save-error warning is appended to the accumulated
warning list and the result degrades to the no-data sentinel. -/
theorem c6_export_failure (fs : String → Option (List String))
    (inP outP : String) (N : Nat) (flag : Bool) (lines : List String)
    (hfs : fs inP = some lines) (hlen : (headersOf lines).length = N)
    (hne : (runLoop (headersOf lines) N flag lines.tail).processed ≠ []) :
    process_ai_data fs false inP outP N flag =
      (none, (runLoop (headersOf lines) N flag lines.tail).warnings ++
        [PWarning.saveError]) :=
  process_write_fail fs inP outP N flag lines hfs hlen hne

/-- C6 witness: a successfully parsed file whose export fails. -/
theorem c6_witness :
    process_ai_data (fun p => if p = "in.txt" then some ["a%b", "1%2"] else none)
        false "in.txt" "out.xlsx" 2 false =
      (none, [PWarning.saveError]) :=
  c6_export_failure
    (fun p => if p = "in.txt" then some ["a%b", "1%2"] else none)
    "in.txt" "out.xlsx" 2 false ["a%b", "1%2"]
    (by decide) (by decide) (by decide)

/-! ### Claim C7 -/

/-- C7: for every input file with a header of exactly `num_columns`
fields whose remaining lines yield zero records, `process_ai_data`
returns the no-data sentinel with the no-valid-data warning appended
after all warnings accumulated during the pass. -/
theorem c7_no_valid_data (fs : String → Option (List String)) (wOk : Bool)
    (inP outP : String) (N : Nat) (flag : Bool) (lines : List String)
    (hfs : fs inP = some lines) (hlen : (headersOf lines).length = N)
    (hzero : (runLoop (headersOf lines) N flag lines.tail).processed = []) :
    process_ai_data fs wOk inP outP N flag =
      (none, (runLoop (headersOf lines) N flag lines.tail).warnings ++
        [PWarning.noValidData]) :=
  process_no_records fs wOk inP outP N flag lines hfs hlen hzero

/-- C7 witness: a header-only file. -/
theorem c7_witness :
    process_ai_data (fun p => if p = "in.txt" then some ["a%b"] else none)
        true "in.txt" "out.xlsx" 2 false =
      (none, [PWarning.noValidData]) :=
  c7_no_valid_data
    (fun p => if p = "in.txt" then some ["a%b"] else none)
    true "in.txt" "out.xlsx" 2 false ["a%b"]
    (by decide) (by decide) (by decide)

/-! ### Claim C8 -/

/-- C8: a data line that is blank after stripping produces neither a
record nor a warning, for both flag values: the loop state is returned
unchanged. -/
theorem c8_blank_line_silent (headers : List String) (N : Nat) (flag : Bool)
    (st : LoopState) (ln : Nat) (line : String) (h : pyStrip line = "") :
    processLine headers N flag st ln line = st :=
  processLine_blank headers N flag st ln line h

/-- C8 witness: a whitespace-only line is skipped silently. -/
theorem c8_witness :
    processLine ["a"] 1 true initState 5 "   " = initState :=
  c8_blank_line_silent ["a"] 1 true initState 5 "   " (by decide)

/-! ### Claim C9 -/

/-- C9: when the header sequence contains a repeated field name (and has
exactly `num_columns` fields), a data line splitting into `num_columns`
parts is still accepted without any warning, but the emitted record has
fewer keys than `num_columns`, and for every key the kept value is the
last of its positional values (no key-uniqueness check is made). -/
theorem c9_duplicate_headers (headers : List String) (N : Nat)
    (st : LoopState) (ln : Nat) (line : String) (h1 : pyStrip line ≠ "")
    (h2 : pySplit DELIMITER (pyStrip line) ≠ headers)
    (h3 : (pySplit DELIMITER (pyStrip line)).length = N)
    (hdup : ¬ headers.Nodup) (hlen : headers.length = N) :
    processLine headers N false st ln line =
      { warnings := st.warnings,
        processed := st.processed ++
          [dictOfPairs (headers.zip (pySplit DELIMITER (pyStrip line)))] } ∧
    (dictOfPairs (headers.zip (pySplit DELIMITER (pyStrip line)))).length < N ∧
    ∀ k, pyGet (dictOfPairs (headers.zip (pySplit DELIMITER (pyStrip line)))) k =
      lastVal (headers.zip (pySplit DELIMITER (pyStrip line))) k := by
  refine ⟨processLine_false_record headers N st ln line h1 h2 h3, ?_,
    fun k => pyGet_dictOfPairs _ k⟩
  have hle : headers.length ≤ (pySplit DELIMITER (pyStrip line)).length := by
    omega
  have hzip : (headers.zip (pySplit DELIMITER (pyStrip line))).map Prod.fst
      = headers := List.map_fst_zip _ _ hle
  have hd : ¬ ((headers.zip (pySplit DELIMITER (pyStrip line))).map Prod.fst).Nodup := by
    rw [hzip]; exact hdup
  have hlt := length_dictOfPairs_lt _ hd
  have hzl : (headers.zip (pySplit DELIMITER (pyStrip line))).length = N := by
    rw [List.length_zip]; omega
  omega

/-- C9 witness: duplicated header `a%a`, data line `1%2`: the record is
`{a: "2"}` with a single key holding the last positional value. -/
theorem c9_witness :
    processLine ["a", "a"] 2 false initState 2 "1%2" =
      { warnings := [], processed := [[("a", "2")]] } ∧
    ([("a", "2")] : Record).length < 2 ∧
    pyGet [("a", "2")] "a" =
      lastVal (["a", "a"].zip (pySplit DELIMITER (pyStrip "1%2"))) "a" := by
  have h := c9_duplicate_headers ["a", "a"] 2 initState 2 "1%2"
    (by decide) (by decide) (by decide) (by decide) (by decide)
  exact ⟨h.1, h.2.1, h.2.2 "a"⟩

/-! ### Claim C10 -/

/-- C10: on every successful run (at least one record parsed and the
spreadsheet write succeeds) the result is the parsed records, and the
returned warning list is non-empty with the saved-ok informational
message as its last element. -/
theorem c10_success_warning (fs : String → Option (List String))
    (inP outP : String) (N : Nat) (flag : Bool) (lines : List String)
    (hfs : fs inP = some lines) (hlen : (headersOf lines).length = N)
    (hne : (runLoop (headersOf lines) N flag lines.tail).processed ≠ []) :
    (process_ai_data fs true inP outP N flag).1 =
      some (runLoop (headersOf lines) N flag lines.tail).processed ∧
    (process_ai_data fs true inP outP N flag).2 ≠ [] ∧
    (process_ai_data fs true inP outP N flag).2.getLast? =
      some (PWarning.savedOk outP) := by
  rw [process_success fs inP outP N flag lines hfs hlen hne]
  refine ⟨rfl, by simp, ?_⟩
  exact List.getLast?_concat _

/-- C10 witness: a clean run with no per-line warnings still returns a
non-empty warning list ending in the saved-ok message. -/
theorem c10_witness :
    (process_ai_data (fun p => if p = "in.txt" then some ["a%b", "1%2"] else none)
        true "in.txt" "out.xlsx" 2 false).1 = some [[("a", "1"), ("b", "2")]] ∧
    (process_ai_data (fun p => if p = "in.txt" then some ["a%b", "1%2"] else none)
        true "in.txt" "out.xlsx" 2 false).2 ≠ [] ∧
    (process_ai_data (fun p => if p = "in.txt" then some ["a%b", "1%2"] else none)
        true "in.txt" "out.xlsx" 2 false).2.getLast? =
      some (PWarning.savedOk "out.xlsx") :=
  c10_success_warning
    (fun p => if p = "in.txt" then some ["a%b", "1%2"] else none)
    "in.txt" "out.xlsx" 2 false ["a%b", "1%2"]
    (by decide) (by decide) (by decide)

end DataProcessor
